import Mathlib

/-!
Shallow embedding of `src/drivers/tapdisk-metrics.c` (blktap).

The file embeds the two halves of the metrics subsystem:

* the instrumentation hooks `td_metrics_vdi_update_submit`,
  `td_metrics_vdi_update_merged` and `td_metrics_vdi_update_completed`,
  which mutate a per-device record of ten counters, modelled as pure
  state-passing functions over a map from device indices to `Stats`;

* the directory manager `td_metrics_start` / `td_metrics_stop` with its
  recursive purge helper `empty_folder`, modelled over an inductive
  filesystem tree.  Each tree entry carries a `prot` flag meaning that
  `unlink`/`rmdir` on it fails (e.g. `EPERM`); the C code ignores the
  return values of `stat`, `unlink` and `rmdir`, and the model reflects
  exactly where the code keeps going and where it logs.

The counters are C `unsigned long long`.  The unit increments of the
request and sector counters are modelled on `Nat`: the spec assumes they
are never wrapped or reset, and overflow cannot occur there short of
`2^64` hook invocations.  The tick accumulators are different: the code
adds a signed `long` interval (which can be negative) to an unsigned
field, so their update keeps the explicit mod-`2^64` unsigned semantics
(`addTicks`).
-/

namespace Tapdisk

/-- libaio opcode of a read request (`IO_CMD_PREAD`). -/
def IO_CMD_PREAD : Nat := 0

/-- libaio opcode of a write request (`IO_CMD_PWRITE`). -/
def IO_CMD_PWRITE : Nat := 1

/-- Modelled from the spec: `DEFAULT_SECTOR_SIZE` is defined in a header
that is not under `src/`; the spec fixes the sector size (§8 end-to-end
scenario: 4096 bytes with sector size 512 give 8 sectors). -/
def DEFAULT_SECTOR_SIZE : Nat := 512

/-- Width of the C `unsigned long long` counter fields. -/
def W : Nat := 2 ^ 64

/-- The fields of `struct timeval` that the hooks read (`gettimeofday`
fills `tv_sec` seconds and `tv_usec` microseconds, `0 ≤ tv_usec < 10^6`). -/
structure Timeval where
  tv_sec : Nat
  tv_usec : Nat
deriving DecidableEq, Repr

/-- Modelled from the spec: the stats record layout lives in the
`tapdisk-metrics` header, which is not under `src/`; the spec (§3)
enumerates exactly these ten counters, all starting at zero in a
zero-filled shared page. -/
structure Stats where
  read_reqs_submitted : Nat
  write_reqs_submitted : Nat
  read_reqs_merged : Nat
  write_reqs_merged : Nat
  read_reqs_completed : Nat
  write_reqs_completed : Nat
  read_sectors : Nat
  write_sectors : Nat
  read_total_ticks : Nat
  write_total_ticks : Nat
deriving DecidableEq, Repr

/-- The all-zero stats record of a freshly created (zero-filled) region. -/
def zeroStats : Stats := ⟨0, 0, 0, 0, 0, 0, 0, 0, 0, 0⟩

/-- The fields of an in-flight operation that the hooks touch: the owning
device (`tiocb->vdi_stats`, modelled as an index), the opcode
(`iocb->aio_lio_opcode`), the byte count (`iocb->u.c.nbytes`) and the
submission timestamp (`tiocb->ts`, written by the submit hook). -/
structure Op where
  dev : Nat
  aio_lio_opcode : Nat
  nbytes : Nat
  ts : Timeval
deriving DecidableEq, Repr

/-- The per-device view of all shared regions: device index ↦ counters. -/
abbrev StatsMap := Nat → Stats

/-- Point update of the stats map (writing through `tiocb->vdi_stats`). -/
def updateAt (st : StatsMap) (d : Nat) (s : Stats) : StatsMap :=
  fun x => if x = d then s else st x

/-- C semantics of `unsigned long long ticks += (long) interval`: the
signed interval is reduced mod `2^64` and added mod `2^64`. -/
def addTicks (t : Nat) (i : Int) : Nat :=
  (((t : Int) + i) % (W : Int)).toNat

/-- The `interval = end.tv_usec - tiocb->ts.tv_usec` computation of
`td_metrics_vdi_update_completed` (line 243): only the microsecond
fields of the two timestamps take part; `interval` is a signed `long`. -/
def interval (endTv : Timeval) (ts : Timeval) : Int :=
  (endTv.tv_usec : Int) - (ts.tv_usec : Int)

/-- Body of the loop of `td_metrics_vdi_update_submit` for one iocb:
stamp `tiocb->ts` with the shared batch timestamp and bump the device's
submitted counter (read when the opcode is `IO_CMD_PREAD`, write
otherwise). -/
def submitStep (start : Timeval) (st : StatsMap) (iocb : Op) : Op × StatsMap :=
  let iocb' := { iocb with ts := start }
  let s := st iocb.dev
  let s' :=
    if iocb.aio_lio_opcode = IO_CMD_PREAD then
      { s with read_reqs_submitted := s.read_reqs_submitted + 1 }
    else
      { s with write_reqs_submitted := s.write_reqs_submitted + 1 }
  (iocb', updateAt st iocb.dev s')

/-- `td_metrics_vdi_update_submit` (lines 188-210): `gettimeofday` is
called once before the loop; the model receives that single sample as
`start` and returns the stamped batch together with the updated stats. -/
def td_metrics_vdi_update_submit (start : Timeval) (iocbs : List Op)
    (st : StatsMap) : List Op × StatsMap :=
  match iocbs with
  | [] => ([], st)
  | iocb :: rest =>
      let p := submitStep start st iocb
      let q := td_metrics_vdi_update_submit start rest p.2
      (p.1 :: q.1, q.2)

/-- `td_metrics_vdi_update_merged` (lines 212-225): bump the device's
merged counter, read when the opcode is `IO_CMD_PREAD`, write otherwise. -/
def td_metrics_vdi_update_merged (iocb : Op) (st : StatsMap) : StatsMap :=
  let s := st iocb.dev
  let s' :=
    if iocb.aio_lio_opcode = IO_CMD_PREAD then
      { s with read_reqs_merged := s.read_reqs_merged + 1 }
    else
      { s with write_reqs_merged := s.write_reqs_merged + 1 }
  updateAt st iocb.dev s'

/-- Body of the loop of `td_metrics_vdi_update_completed` for one event:
reads bump completed/sectors/ticks on the read side, writes on the write
side, any other opcode falls through both branches and updates nothing. -/
def completeStep (endTv : Timeval) (st : StatsMap) (iocb : Op) : StatsMap :=
  let s := st iocb.dev
  let i := interval endTv iocb.ts
  if iocb.aio_lio_opcode = IO_CMD_PREAD then
    updateAt st iocb.dev
      { s with
        read_reqs_completed := s.read_reqs_completed + 1,
        read_sectors := s.read_sectors + iocb.nbytes / DEFAULT_SECTOR_SIZE,
        read_total_ticks := addTicks s.read_total_ticks i }
  else if iocb.aio_lio_opcode = IO_CMD_PWRITE then
    updateAt st iocb.dev
      { s with
        write_reqs_completed := s.write_reqs_completed + 1,
        write_sectors := s.write_sectors + iocb.nbytes / DEFAULT_SECTOR_SIZE,
        write_total_ticks := addTicks s.write_total_ticks i }
  else st

/-- `td_metrics_vdi_update_completed` (lines 227-254): `gettimeofday` is
called once before the loop (sample `endTv`); each completion event
resolves to its iocb, carrying the timestamp stamped at submit. -/
def td_metrics_vdi_update_completed (endTv : Timeval) (events : List Op)
    (st : StatsMap) : StatsMap :=
  events.foldl (completeStep endTv) st

/-- One invocation of an instrumentation hook, as seen by a trace. -/
inductive MEvent where
  | submit (now : Timeval) (batch : List Op)
  | merge (iocb : Op)
  | complete (now : Timeval) (events : List Op)
deriving DecidableEq, Repr

/-- Effect of one hook invocation on the stats map. -/
def stepEvent (st : StatsMap) (e : MEvent) : StatsMap :=
  match e with
  | .submit now batch => (td_metrics_vdi_update_submit now batch st).2
  | .merge iocb => td_metrics_vdi_update_merged iocb st
  | .complete now evs => td_metrics_vdi_update_completed now evs st

/-- Run a sequence of hook invocations from a given stats map. -/
def runTrace (st : StatsMap) (tr : List MEvent) : StatsMap :=
  tr.foldl stepEvent st

/-- All regions as they are right after a successful start: zero-filled. -/
def freshMap : StatsMap := fun _ => zeroStats

/-- Does this iocb hit device `d` on the read branch of the hooks? -/
def isReadFor (d : Nat) (iocb : Op) : Bool :=
  decide (iocb.dev = d ∧ iocb.aio_lio_opcode = IO_CMD_PREAD)

/-- Does this iocb hit device `d` on the write branch of submit/merge
(any opcode other than `IO_CMD_PREAD`)? -/
def isNonReadFor (d : Nat) (iocb : Op) : Bool :=
  decide (iocb.dev = d ∧ ¬ iocb.aio_lio_opcode = IO_CMD_PREAD)

/-- Does this iocb hit device `d` with the write opcode proper? -/
def isWriteFor (d : Nat) (iocb : Op) : Bool :=
  decide (iocb.dev = d ∧ iocb.aio_lio_opcode = IO_CMD_PWRITE)

/-- Accumulate a list of signed intervals into a tick counter, one
unsigned mod-`2^64` addition per completed request. -/
def tickAccum (t : Nat) (is : List Int) : Nat :=
  is.foldl addTicks t

/-- Count, per hook invocation, the submitted iocbs that bump device
`d`'s `read_reqs_submitted` counter. -/
def nSubRead (d : Nat) : MEvent → Nat
  | .submit _ batch => (batch.filter (isReadFor d)).length
  | _ => 0

/-- Count, per hook invocation, the submitted iocbs that bump device
`d`'s `write_reqs_submitted` counter (opcode anything but read). -/
def nSubWrite (d : Nat) : MEvent → Nat
  | .submit _ batch => (batch.filter (isNonReadFor d)).length
  | _ => 0

/-- Count, per hook invocation, the submitted iocbs of device `d` whose
opcode is the write opcode proper. -/
def nSubWriteStrict (d : Nat) : MEvent → Nat
  | .submit _ batch => (batch.filter (isWriteFor d)).length
  | _ => 0

/-- Count the merge invocations that bump device `d`'s read counter. -/
def nMergeRead (d : Nat) : MEvent → Nat
  | .merge iocb => if isReadFor d iocb then 1 else 0
  | _ => 0

/-- Count the merge invocations that bump device `d`'s write counter
(opcode anything but read). -/
def nMergeWrite (d : Nat) : MEvent → Nat
  | .merge iocb => if isNonReadFor d iocb then 1 else 0
  | _ => 0

/-- Count the merge invocations on device `d` with the write opcode
proper. -/
def nMergeWriteStrict (d : Nat) : MEvent → Nat
  | .merge iocb => if isWriteFor d iocb then 1 else 0
  | _ => 0

/-- Count, per hook invocation, the completion events that bump device
`d`'s `read_reqs_completed` counter. -/
def nCompRead (d : Nat) : MEvent → Nat
  | .complete _ evs => (evs.filter (isReadFor d)).length
  | _ => 0

/-- Count, per hook invocation, the completion events that bump device
`d`'s `write_reqs_completed` counter. -/
def nCompWrite (d : Nat) : MEvent → Nat
  | .complete _ evs => (evs.filter (isWriteFor d)).length
  | _ => 0

/-- Sectors accounted to device `d`'s `read_sectors` by one invocation. -/
def nSectRead (d : Nat) : MEvent → Nat
  | .complete _ evs =>
      ((evs.filter (isReadFor d)).map
        (fun i => i.nbytes / DEFAULT_SECTOR_SIZE)).sum
  | _ => 0

/-- Sectors accounted to device `d`'s `write_sectors` by one invocation. -/
def nSectWrite (d : Nat) : MEvent → Nat
  | .complete _ evs =>
      ((evs.filter (isWriteFor d)).map
        (fun i => i.nbytes / DEFAULT_SECTOR_SIZE)).sum
  | _ => 0

/-- Total of a per-invocation count over a whole trace. -/
def traceCount (f : MEvent → Nat) : List MEvent → Nat
  | [] => 0
  | e :: tr => f e + traceCount f tr

/-- The signed intervals added to device `d`'s `read_total_ticks` by a
trace, in order. -/
def trTicksRead (d : Nat) : List MEvent → List Int
  | [] => []
  | MEvent.complete now evs :: tr =>
      ((evs.filter (isReadFor d)).map (fun i => interval now i.ts))
        ++ trTicksRead d tr
  | _ :: tr => trTicksRead d tr

/-- The signed intervals added to device `d`'s `write_total_ticks` by a
trace, in order. -/
def trTicksWrite (d : Nat) : List MEvent → List Int
  | [] => []
  | MEvent.complete now evs :: tr =>
      ((evs.filter (isWriteFor d)).map (fun i => interval now i.ts))
        ++ trTicksWrite d tr
  | _ :: tr => trTicksWrite d tr

/-- Does every operation fed to on_submit/on_merge carry a read or write
opcode?  (on_complete ignores other opcodes, so it is unrestricted.) -/
def rwOnlyEvent : MEvent → Bool
  | .submit _ batch =>
      batch.all fun i =>
        decide (i.aio_lio_opcode = IO_CMD_PREAD ∨
                i.aio_lio_opcode = IO_CMD_PWRITE)
  | .merge iocb =>
      decide (iocb.aio_lio_opcode = IO_CMD_PREAD ∨
              iocb.aio_lio_opcode = IO_CMD_PWRITE)
  | .complete _ _ => true

/-- A trace whose submit/merge invocations use only read/write opcodes. -/
def rwOnly (tr : List MEvent) : Bool :=
  tr.all rwOnlyEvent

/-- A filesystem object, as `empty_folder` discriminates them: a regular
file (`stat` reports `S_IFREG`) or a directory.  The `prot` flag models
the environment making `unlink`/`rmdir` of this entry fail (e.g.
`EPERM`); the C code ignores those return values, and the model keeps
the failed entry in place. -/
inductive FsEntry where
  | file (prot : Bool)
  | dir (prot : Bool) (entries : List (String × FsEntry))

/-- errno `ENOENT` (no such file or directory). -/
def ENOENT : Nat := 2

/-- errno `ENOTDIR` (not a directory). -/
def ENOTDIR : Nat := 20

/-- The `readdir` loop of `empty_folder` (lines 55-74): for each entry
other than `.`/`..`, a regular file is `unlink`ed and anything else is
recursed into and then `rmdir`ed; the returns of `stat`, `unlink` and
`rmdir` are ignored, so a failed removal leaves the entry in place and
the loop moves on to the next sibling.  The second component collects
the `EPRINTF` log lines emitted while processing the list: the only
`EPRINTF` inside the loop guards `asprintf` failure (out of memory,
outside this model), and the recursive `empty_folder` call only logs
when `opendir` fails, which cannot happen on an actual directory. -/
def purgeList : List (String × FsEntry) → List (String × FsEntry) × List String
  | [] => ([], [])
  | (name, FsEntry.file p) :: rest =>
      let r := purgeList rest
      if p then ((name, FsEntry.file p) :: r.1, r.2) else r
  | (name, FsEntry.dir p es) :: rest =>
      let e := purgeList es
      let r := purgeList rest
      if !p && e.1.isEmpty then (r.1, e.2 ++ r.2)
      else ((name, FsEntry.dir p e.1) :: r.1, e.2 ++ r.2)

/-- `empty_folder` (lines 39-81) applied to whatever sits at the path:
nothing or a regular file make `opendir` fail (logged, nonzero errno
returned); a directory is purged entry by entry and left in place (the
caller removes it).  Result: object now at the path, returned err,
emitted log lines. -/
def empty_folder : Option FsEntry → Option FsEntry × Nat × List String
  | none => (none, ENOENT, ["failed to open directory"])
  | some (FsEntry.file p) =>
      (some (FsEntry.file p), ENOTDIR, ["failed to open directory"])
  | some (FsEntry.dir p es) =>
      let r := purgeList es
      (some (FsEntry.dir p r.1), 0, r.2)

/-- Is every entry of the tree removable (no `prot` flag anywhere)? -/
def removableList : List (String × FsEntry) → Bool
  | [] => true
  | (_, FsEntry.file p) :: rest => !p && removableList rest
  | (_, FsEntry.dir p es) :: rest =>
      !p && removableList es && removableList rest

/-- The state the directory manager owns: the static `td_metrics.path`
pointer and the filesystem object currently at the computed root path
(`none` when nothing exists there). -/
structure MetricsFs where
  path : Option String
  root : Option FsEntry

/-- Modelled from the spec: `TAPDISK_METRICS_PATHF` lives in a header
not under `src/`; the spec only requires the root path to be a
deterministic function of the process identity. -/
def TAPDISK_METRICS_PATHF (pid : Nat) : String :=
  "/dev/shm/td3-" ++ toString pid

/-- `td_metrics_start` (lines 83-112): formats the root path from the
pid, `mkdir`s it; when `mkdir` fails with `EEXIST` the error is cleared
and the existing object is emptied (the return of `empty_folder` is
ignored).  The error-free model leaves out `asprintf` failure and
`mkdir` failures other than `EEXIST`. -/
def td_metrics_start (pid : Nat) (s : MetricsFs) : MetricsFs × Nat :=
  let p := TAPDISK_METRICS_PATHF pid
  match s.root with
  | none => ({ path := some p, root := some (FsEntry.dir false []) }, 0)
  | some r =>
      let e := empty_folder (some r)
      ({ path := some p, root := e.1 }, 0)

/-- Can `rmdir` remove this object?  Only an existing, empty directory
that the environment does not protect. -/
def rmdirOk : Option FsEntry → Bool
  | some (FsEntry.dir false []) => true
  | _ => false

/-- `td_metrics_stop` (lines 114-132): a no-op when `td_metrics.path`
was never set; otherwise empties the root and `rmdir`s it.  Only when
`rmdir` succeeds (the object is an empty, removable directory) is the
path record freed and cleared; on `rmdir` failure the code jumps to
`out` with the path still set. -/
def td_metrics_stop (s : MetricsFs) : MetricsFs :=
  match s.path with
  | none => s
  | some p =>
      let e := empty_folder s.root
      if rmdirOk e.1 then { path := none, root := none }
      else { path := some p, root := e.1 }

/-! ## Characterization of the three hooks, one device at a time -/

theorem submit_stats_at (start : Timeval) (batch : List Op) (st : StatsMap)
    (d : Nat) :
    (td_metrics_vdi_update_submit start batch st).2 d =
      { st d with
        read_reqs_submitted :=
          (st d).read_reqs_submitted + (batch.filter (isReadFor d)).length,
        write_reqs_submitted :=
          (st d).write_reqs_submitted +
            (batch.filter (isNonReadFor d)).length } := by
  induction batch generalizing st with
  | nil => simp [td_metrics_vdi_update_submit]
  | cons iocb rest ih =>
      simp only [td_metrics_vdi_update_submit]
      rw [ih]
      by_cases hd : iocb.dev = d
      · by_cases hop : iocb.aio_lio_opcode = IO_CMD_PREAD
        · simp [submitStep, updateAt, hd, hop, isReadFor, isNonReadFor,
            List.filter_cons, Stats.mk.injEq] <;> omega
        · simp [submitStep, updateAt, hd, hop, isReadFor, isNonReadFor,
            List.filter_cons, Stats.mk.injEq] <;> omega
      · have hd2 : ¬ d = iocb.dev := fun hq => hd hq.symm
        by_cases hop : iocb.aio_lio_opcode = IO_CMD_PREAD
        · simp [submitStep, updateAt, hd, hd2, hop, isReadFor, isNonReadFor,
            List.filter_cons, Stats.mk.injEq] <;> omega
        · simp [submitStep, updateAt, hd, hd2, hop, isReadFor, isNonReadFor,
            List.filter_cons, Stats.mk.injEq] <;> omega

theorem merged_stats_at (iocb : Op) (st : StatsMap) (d : Nat) :
    td_metrics_vdi_update_merged iocb st d =
      { st d with
        read_reqs_merged :=
          (st d).read_reqs_merged + (if isReadFor d iocb then 1 else 0),
        write_reqs_merged :=
          (st d).write_reqs_merged +
            (if isNonReadFor d iocb then 1 else 0) } := by
  by_cases hd : iocb.dev = d
  · by_cases hop : iocb.aio_lio_opcode = IO_CMD_PREAD
    · simp [td_metrics_vdi_update_merged, updateAt, hd, hop, isReadFor,
        isNonReadFor, Stats.mk.injEq]
    · simp [td_metrics_vdi_update_merged, updateAt, hd, hop, isReadFor,
        isNonReadFor, Stats.mk.injEq]
  · have hd2 : ¬ d = iocb.dev := fun hq => hd hq.symm
    by_cases hop : iocb.aio_lio_opcode = IO_CMD_PREAD
    · simp [td_metrics_vdi_update_merged, updateAt, hd, hd2, hop, isReadFor,
        isNonReadFor, Stats.mk.injEq]
    · simp [td_metrics_vdi_update_merged, updateAt, hd, hd2, hop, isReadFor,
        isNonReadFor, Stats.mk.injEq]

theorem completed_stats_at (endTv : Timeval) (evs : List Op) (st : StatsMap)
    (d : Nat) :
    td_metrics_vdi_update_completed endTv evs st d =
      { st d with
        read_reqs_completed :=
          (st d).read_reqs_completed + (evs.filter (isReadFor d)).length,
        write_reqs_completed :=
          (st d).write_reqs_completed + (evs.filter (isWriteFor d)).length,
        read_sectors :=
          (st d).read_sectors +
            ((evs.filter (isReadFor d)).map
              (fun i => i.nbytes / DEFAULT_SECTOR_SIZE)).sum,
        write_sectors :=
          (st d).write_sectors +
            ((evs.filter (isWriteFor d)).map
              (fun i => i.nbytes / DEFAULT_SECTOR_SIZE)).sum,
        read_total_ticks :=
          tickAccum (st d).read_total_ticks
            ((evs.filter (isReadFor d)).map (fun i => interval endTv i.ts)),
        write_total_ticks :=
          tickAccum (st d).write_total_ticks
            ((evs.filter (isWriteFor d)).map
              (fun i => interval endTv i.ts)) } := by
  induction evs generalizing st with
  | nil => simp [td_metrics_vdi_update_completed, tickAccum]
  | cons iocb rest ih =>
      simp only [td_metrics_vdi_update_completed, List.foldl_cons] at ih ⊢
      rw [ih]
      have hpw : ¬ IO_CMD_PWRITE = IO_CMD_PREAD := by decide
      have hrw : ¬ IO_CMD_PREAD = IO_CMD_PWRITE := by decide
      by_cases hd : iocb.dev = d
      · by_cases hop1 : iocb.aio_lio_opcode = IO_CMD_PREAD
        · simp [completeStep, updateAt, hd, hop1, isReadFor, isWriteFor,
            List.filter_cons, tickAccum, Stats.mk.injEq, hpw, hrw] <;> omega
        · by_cases hop2 : iocb.aio_lio_opcode = IO_CMD_PWRITE
          · simp [completeStep, updateAt, hd, hop1, hop2, isReadFor,
              isWriteFor, List.filter_cons, tickAccum, Stats.mk.injEq, hpw, hrw]
              <;> omega
          · simp [completeStep, updateAt, hd, hop1, hop2, isReadFor,
              isWriteFor, List.filter_cons, tickAccum, Stats.mk.injEq, hpw, hrw]
      · have hd2 : ¬ d = iocb.dev := fun hq => hd hq.symm
        by_cases hop1 : iocb.aio_lio_opcode = IO_CMD_PREAD
        · simp [completeStep, updateAt, hd, hd2, hop1, isReadFor, isWriteFor,
            List.filter_cons, tickAccum, Stats.mk.injEq, hpw, hrw]
        · by_cases hop2 : iocb.aio_lio_opcode = IO_CMD_PWRITE
          · simp [completeStep, updateAt, hd, hd2, hop1, hop2, isReadFor,
              isWriteFor, List.filter_cons, tickAccum, Stats.mk.injEq, hpw, hrw]
          · simp [completeStep, updateAt, hd, hd2, hop1, hop2, isReadFor,
              isWriteFor, List.filter_cons, tickAccum, Stats.mk.injEq, hpw, hrw]

theorem tickAccum_append (t : Nat) (l1 l2 : List Int) :
    tickAccum t (l1 ++ l2) = tickAccum (tickAccum t l1) l2 := by
  simp [tickAccum]

/-- Every counter of every device after a trace of hook invocations,
expressed from the counts of matching operations in the trace. -/
theorem runTrace_stats (tr : List MEvent) (st : StatsMap) (d : Nat) :
    runTrace st tr d =
      { st d with
        read_reqs_submitted :=
          (st d).read_reqs_submitted + traceCount (nSubRead d) tr,
        write_reqs_submitted :=
          (st d).write_reqs_submitted + traceCount (nSubWrite d) tr,
        read_reqs_merged :=
          (st d).read_reqs_merged + traceCount (nMergeRead d) tr,
        write_reqs_merged :=
          (st d).write_reqs_merged + traceCount (nMergeWrite d) tr,
        read_reqs_completed :=
          (st d).read_reqs_completed + traceCount (nCompRead d) tr,
        write_reqs_completed :=
          (st d).write_reqs_completed + traceCount (nCompWrite d) tr,
        read_sectors :=
          (st d).read_sectors + traceCount (nSectRead d) tr,
        write_sectors :=
          (st d).write_sectors + traceCount (nSectWrite d) tr,
        read_total_ticks :=
          tickAccum (st d).read_total_ticks (trTicksRead d tr),
        write_total_ticks :=
          tickAccum (st d).write_total_ticks (trTicksWrite d tr) } := by
  induction tr generalizing st with
  | nil => simp [runTrace, traceCount, trTicksRead, trTicksWrite, tickAccum]
  | cons e tr ih =>
      simp only [runTrace, List.foldl_cons] at ih ⊢
      rw [ih]
      cases e with
      | submit now batch =>
          simp only [stepEvent]
          rw [submit_stats_at]
          simp [traceCount, nSubRead, nSubWrite, nMergeRead, nMergeWrite,
            nCompRead, nCompWrite, nSectRead, nSectWrite, trTicksRead,
            trTicksWrite, Stats.mk.injEq] <;> omega
      | merge iocb =>
          simp only [stepEvent]
          rw [merged_stats_at]
          simp [traceCount, nSubRead, nSubWrite, nMergeRead, nMergeWrite,
            nCompRead, nCompWrite, nSectRead, nSectWrite, trTicksRead,
            trTicksWrite, Stats.mk.injEq] <;> omega
      | complete now evs =>
          simp only [stepEvent]
          rw [completed_stats_at]
          simp [traceCount, nSubRead, nSubWrite, nMergeRead, nMergeWrite,
            nCompRead, nCompWrite, nSectRead, nSectWrite, trTicksRead,
            trTicksWrite, tickAccum_append, Stats.mk.injEq] <;> omega

theorem traceCount_append (f : MEvent → Nat) (tr1 tr2 : List MEvent) :
    traceCount f (tr1 ++ tr2) = traceCount f tr1 + traceCount f tr2 := by
  induction tr1 with
  | nil => simp [traceCount]
  | cons e tr ih => simp [traceCount, ih]; omega

/-- C1 (amended): after a successful start, for every device and every
extension of a trace of hook invocations, the eight request and sector
counters are monotonically non-decreasing; the two tick accumulators are
exempt, since `on_complete` can add a negative interval to them (see the
counterexample). -/
theorem c1_eight_counters_monotone (tr1 tr2 : List MEvent) (d : Nat) :
    (runTrace freshMap tr1 d).read_reqs_submitted ≤
        (runTrace freshMap (tr1 ++ tr2) d).read_reqs_submitted ∧
    (runTrace freshMap tr1 d).write_reqs_submitted ≤
        (runTrace freshMap (tr1 ++ tr2) d).write_reqs_submitted ∧
    (runTrace freshMap tr1 d).read_reqs_merged ≤
        (runTrace freshMap (tr1 ++ tr2) d).read_reqs_merged ∧
    (runTrace freshMap tr1 d).write_reqs_merged ≤
        (runTrace freshMap (tr1 ++ tr2) d).write_reqs_merged ∧
    (runTrace freshMap tr1 d).read_reqs_completed ≤
        (runTrace freshMap (tr1 ++ tr2) d).read_reqs_completed ∧
    (runTrace freshMap tr1 d).write_reqs_completed ≤
        (runTrace freshMap (tr1 ++ tr2) d).write_reqs_completed ∧
    (runTrace freshMap tr1 d).read_sectors ≤
        (runTrace freshMap (tr1 ++ tr2) d).read_sectors ∧
    (runTrace freshMap tr1 d).write_sectors ≤
        (runTrace freshMap (tr1 ++ tr2) d).write_sectors := by
  simp [runTrace_stats, freshMap, zeroStats, traceCount_append]

/-- C1 counterexample: a read submitted at 10.9s and completed at 11.1s
(a later instant) straddles a second boundary; `on_complete` then adds
`100000 - 900000 = -800000` to `read_total_ticks`, which drops from
800000 back to 0.  The claim that no hook invocation ever decreases any
of the ten counters is therefore false for the tick accumulators. -/
theorem c1_ticks_decrease_counterexample :
    (runTrace freshMap
      [MEvent.submit ⟨10, 100000⟩ [⟨0, IO_CMD_PREAD, 512, ⟨0, 0⟩⟩],
       MEvent.complete ⟨10, 900000⟩ [⟨0, IO_CMD_PREAD, 512, ⟨10, 100000⟩⟩],
       MEvent.submit ⟨10, 900000⟩ [⟨0, IO_CMD_PREAD, 512, ⟨0, 0⟩⟩],
       MEvent.complete ⟨11, 100000⟩ [⟨0, IO_CMD_PREAD, 512, ⟨10, 900000⟩⟩]]
      0).read_total_ticks <
    (runTrace freshMap
      [MEvent.submit ⟨10, 100000⟩ [⟨0, IO_CMD_PREAD, 512, ⟨0, 0⟩⟩],
       MEvent.complete ⟨10, 900000⟩ [⟨0, IO_CMD_PREAD, 512, ⟨10, 100000⟩⟩]]
      0).read_total_ticks := by
  decide

theorem filter_nonread_length (d : Nat) (batch : List Op)
    (h : (batch.all fun i =>
        decide (i.aio_lio_opcode = IO_CMD_PREAD ∨
                i.aio_lio_opcode = IO_CMD_PWRITE)) = true) :
    (batch.filter (isNonReadFor d)).length =
      (batch.filter (isWriteFor d)).length := by
  have hrw : ¬ IO_CMD_PREAD = IO_CMD_PWRITE := by decide
  have hpw : ¬ IO_CMD_PWRITE = IO_CMD_PREAD := by decide
  induction batch with
  | nil => rfl
  | cons i rest ih =>
      rw [List.all_cons, Bool.and_eq_true] at h
      have h1 := of_decide_eq_true h.1
      have ihr := ih h.2
      by_cases hd : i.dev = d
      · rcases h1 with h0 | h0
        · simp [List.filter_cons, isNonReadFor, isWriteFor, hd, h0, hrw, ihr]
        · simp [List.filter_cons, isNonReadFor, isWriteFor, hd, h0, hpw, ihr]
      · simp [List.filter_cons, isNonReadFor, isWriteFor, hd, ihr]

theorem count_write_eq_strict (d : Nat) (tr : List MEvent)
    (h : rwOnly tr = true) :
    traceCount (nSubWrite d) tr = traceCount (nSubWriteStrict d) tr ∧
    traceCount (nMergeWrite d) tr = traceCount (nMergeWriteStrict d) tr := by
  have hpw : ¬ IO_CMD_PWRITE = IO_CMD_PREAD := by decide
  have hrw : ¬ IO_CMD_PREAD = IO_CMD_PWRITE := by decide
  induction tr with
  | nil => exact ⟨rfl, rfl⟩
  | cons e tr ih =>
      rw [rwOnly, List.all_cons, Bool.and_eq_true] at h
      have ih' := ih h.2
      cases e with
      | submit now batch =>
          have hb : (batch.all fun i =>
              decide (i.aio_lio_opcode = IO_CMD_PREAD ∨
                      i.aio_lio_opcode = IO_CMD_PWRITE)) = true := h.1
          simp [traceCount, nSubWrite, nSubWriteStrict, nMergeWrite,
            nMergeWriteStrict, ih'.1, ih'.2, filter_nonread_length d batch hb]
      | merge iocb =>
          have h1 := of_decide_eq_true (p :=
            iocb.aio_lio_opcode = IO_CMD_PREAD ∨
            iocb.aio_lio_opcode = IO_CMD_PWRITE) h.1
          rcases h1 with h0 | h0
          · simp [traceCount, nSubWrite, nSubWriteStrict, nMergeWrite,
              nMergeWriteStrict, isNonReadFor, isWriteFor, h0, hrw,
              ih'.1, ih'.2]
          · simp [traceCount, nSubWrite, nSubWriteStrict, nMergeWrite,
              nMergeWriteStrict, isNonReadFor, isWriteFor, h0, hpw,
              ih'.1, ih'.2]
      | complete now evs =>
          simp [traceCount, nSubWrite, nSubWriteStrict, nMergeWrite,
            nMergeWriteStrict, ih'.1, ih'.2]

/-- C2 (amended): for any interleaving of hook invocations in which every
operation passed to `on_submit` and `on_merge` carries a read or write
opcode, each of the six request counters of a device equals exactly the
number of matching operations that referenced it.  (Without the opcode
restriction the claim fails: submit and merge count any non-read opcode
as a write, see the counterexample.) -/
theorem c2_exact_counts (tr : List MEvent) (d : Nat) (h : rwOnly tr = true) :
    (runTrace freshMap tr d).read_reqs_submitted =
        traceCount (nSubRead d) tr ∧
    (runTrace freshMap tr d).write_reqs_submitted =
        traceCount (nSubWriteStrict d) tr ∧
    (runTrace freshMap tr d).read_reqs_merged =
        traceCount (nMergeRead d) tr ∧
    (runTrace freshMap tr d).write_reqs_merged =
        traceCount (nMergeWriteStrict d) tr ∧
    (runTrace freshMap tr d).read_reqs_completed =
        traceCount (nCompRead d) tr ∧
    (runTrace freshMap tr d).write_reqs_completed =
        traceCount (nCompWrite d) tr := by
  have hs := count_write_eq_strict d tr h
  simp [runTrace_stats, freshMap, zeroStats, hs.1, hs.2]

/-- Witness for the amended C2 on a concrete interleaving: one read and
one write submitted, one write merged, one read completed, on device 0. -/
theorem c2_exact_counts_witness :
    (runTrace freshMap
      [MEvent.submit ⟨0, 0⟩ [⟨0, IO_CMD_PREAD, 512, ⟨0, 0⟩⟩,
                             ⟨0, IO_CMD_PWRITE, 512, ⟨0, 0⟩⟩],
       MEvent.merge ⟨0, IO_CMD_PWRITE, 512, ⟨0, 0⟩⟩,
       MEvent.complete ⟨0, 7⟩ [⟨0, IO_CMD_PREAD, 512, ⟨0, 0⟩⟩]]
      0).read_reqs_submitted =
        traceCount (nSubRead 0)
          [MEvent.submit ⟨0, 0⟩ [⟨0, IO_CMD_PREAD, 512, ⟨0, 0⟩⟩,
                                 ⟨0, IO_CMD_PWRITE, 512, ⟨0, 0⟩⟩],
           MEvent.merge ⟨0, IO_CMD_PWRITE, 512, ⟨0, 0⟩⟩,
           MEvent.complete ⟨0, 7⟩ [⟨0, IO_CMD_PREAD, 512, ⟨0, 0⟩⟩]] ∧
    (runTrace freshMap
      [MEvent.submit ⟨0, 0⟩ [⟨0, IO_CMD_PREAD, 512, ⟨0, 0⟩⟩,
                             ⟨0, IO_CMD_PWRITE, 512, ⟨0, 0⟩⟩],
       MEvent.merge ⟨0, IO_CMD_PWRITE, 512, ⟨0, 0⟩⟩,
       MEvent.complete ⟨0, 7⟩ [⟨0, IO_CMD_PREAD, 512, ⟨0, 0⟩⟩]]
      0).write_reqs_submitted =
        traceCount (nSubWriteStrict 0)
          [MEvent.submit ⟨0, 0⟩ [⟨0, IO_CMD_PREAD, 512, ⟨0, 0⟩⟩,
                                 ⟨0, IO_CMD_PWRITE, 512, ⟨0, 0⟩⟩],
           MEvent.merge ⟨0, IO_CMD_PWRITE, 512, ⟨0, 0⟩⟩,
           MEvent.complete ⟨0, 7⟩ [⟨0, IO_CMD_PREAD, 512, ⟨0, 0⟩⟩]] ∧
    (runTrace freshMap
      [MEvent.submit ⟨0, 0⟩ [⟨0, IO_CMD_PREAD, 512, ⟨0, 0⟩⟩,
                             ⟨0, IO_CMD_PWRITE, 512, ⟨0, 0⟩⟩],
       MEvent.merge ⟨0, IO_CMD_PWRITE, 512, ⟨0, 0⟩⟩,
       MEvent.complete ⟨0, 7⟩ [⟨0, IO_CMD_PREAD, 512, ⟨0, 0⟩⟩]]
      0).read_reqs_merged =
        traceCount (nMergeRead 0)
          [MEvent.submit ⟨0, 0⟩ [⟨0, IO_CMD_PREAD, 512, ⟨0, 0⟩⟩,
                                 ⟨0, IO_CMD_PWRITE, 512, ⟨0, 0⟩⟩],
           MEvent.merge ⟨0, IO_CMD_PWRITE, 512, ⟨0, 0⟩⟩,
           MEvent.complete ⟨0, 7⟩ [⟨0, IO_CMD_PREAD, 512, ⟨0, 0⟩⟩]] ∧
    (runTrace freshMap
      [MEvent.submit ⟨0, 0⟩ [⟨0, IO_CMD_PREAD, 512, ⟨0, 0⟩⟩,
                             ⟨0, IO_CMD_PWRITE, 512, ⟨0, 0⟩⟩],
       MEvent.merge ⟨0, IO_CMD_PWRITE, 512, ⟨0, 0⟩⟩,
       MEvent.complete ⟨0, 7⟩ [⟨0, IO_CMD_PREAD, 512, ⟨0, 0⟩⟩]]
      0).write_reqs_merged =
        traceCount (nMergeWriteStrict 0)
          [MEvent.submit ⟨0, 0⟩ [⟨0, IO_CMD_PREAD, 512, ⟨0, 0⟩⟩,
                                 ⟨0, IO_CMD_PWRITE, 512, ⟨0, 0⟩⟩],
           MEvent.merge ⟨0, IO_CMD_PWRITE, 512, ⟨0, 0⟩⟩,
           MEvent.complete ⟨0, 7⟩ [⟨0, IO_CMD_PREAD, 512, ⟨0, 0⟩⟩]] ∧
    (runTrace freshMap
      [MEvent.submit ⟨0, 0⟩ [⟨0, IO_CMD_PREAD, 512, ⟨0, 0⟩⟩,
                             ⟨0, IO_CMD_PWRITE, 512, ⟨0, 0⟩⟩],
       MEvent.merge ⟨0, IO_CMD_PWRITE, 512, ⟨0, 0⟩⟩,
       MEvent.complete ⟨0, 7⟩ [⟨0, IO_CMD_PREAD, 512, ⟨0, 0⟩⟩]]
      0).read_reqs_completed =
        traceCount (nCompRead 0)
          [MEvent.submit ⟨0, 0⟩ [⟨0, IO_CMD_PREAD, 512, ⟨0, 0⟩⟩,
                                 ⟨0, IO_CMD_PWRITE, 512, ⟨0, 0⟩⟩],
           MEvent.merge ⟨0, IO_CMD_PWRITE, 512, ⟨0, 0⟩⟩,
           MEvent.complete ⟨0, 7⟩ [⟨0, IO_CMD_PREAD, 512, ⟨0, 0⟩⟩]] ∧
    (runTrace freshMap
      [MEvent.submit ⟨0, 0⟩ [⟨0, IO_CMD_PREAD, 512, ⟨0, 0⟩⟩,
                             ⟨0, IO_CMD_PWRITE, 512, ⟨0, 0⟩⟩],
       MEvent.merge ⟨0, IO_CMD_PWRITE, 512, ⟨0, 0⟩⟩,
       MEvent.complete ⟨0, 7⟩ [⟨0, IO_CMD_PREAD, 512, ⟨0, 0⟩⟩]]
      0).write_reqs_completed =
        traceCount (nCompWrite 0)
          [MEvent.submit ⟨0, 0⟩ [⟨0, IO_CMD_PREAD, 512, ⟨0, 0⟩⟩,
                                 ⟨0, IO_CMD_PWRITE, 512, ⟨0, 0⟩⟩],
           MEvent.merge ⟨0, IO_CMD_PWRITE, 512, ⟨0, 0⟩⟩,
           MEvent.complete ⟨0, 7⟩ [⟨0, IO_CMD_PREAD, 512, ⟨0, 0⟩⟩]] :=
  c2_exact_counts
    [MEvent.submit ⟨0, 0⟩ [⟨0, IO_CMD_PREAD, 512, ⟨0, 0⟩⟩,
                           ⟨0, IO_CMD_PWRITE, 512, ⟨0, 0⟩⟩],
     MEvent.merge ⟨0, IO_CMD_PWRITE, 512, ⟨0, 0⟩⟩,
     MEvent.complete ⟨0, 7⟩ [⟨0, IO_CMD_PREAD, 512, ⟨0, 0⟩⟩]]
    0 (by decide)

/-- C2 counterexample: submitting a single operation with opcode 2 (for
example `IO_CMD_FSYNC`) bumps `write_reqs_submitted` to 1, although zero
operations with the write opcode were submitted, so the counter does not
equal the number of calls with the matching opcode. -/
theorem c2_opcode_counterexample :
    (runTrace freshMap [MEvent.submit ⟨0, 0⟩ [⟨0, 2, 512, ⟨0, 0⟩⟩]]
        0).write_reqs_submitted = 1 ∧
    traceCount (nSubWriteStrict 0)
      [MEvent.submit ⟨0, 0⟩ [⟨0, 2, 512, ⟨0, 0⟩⟩]] = 0 := by
  constructor
  · decide
  · decide

/-- C5: when `on_complete` handles a read or write event carrying
`N * sector_size + r` bytes (`r < sector_size`), the matching sector
counter grows by exactly `N` (integer truncation of the division by the
fixed sector size). -/
theorem c5_sector_accounting (endTv : Timeval) (st : StatsMap) (iocb : Op)
    (N r : Nat) (hb : iocb.nbytes = N * DEFAULT_SECTOR_SIZE + r)
    (hr : r < DEFAULT_SECTOR_SIZE) :
    (iocb.aio_lio_opcode = IO_CMD_PREAD →
      (td_metrics_vdi_update_completed endTv [iocb] st iocb.dev).read_sectors
        = (st iocb.dev).read_sectors + N) ∧
    (iocb.aio_lio_opcode = IO_CMD_PWRITE →
      (td_metrics_vdi_update_completed endTv [iocb] st iocb.dev).write_sectors
        = (st iocb.dev).write_sectors + N) := by
  have hdiv : iocb.nbytes / DEFAULT_SECTOR_SIZE = N := by
    rw [hb]
    simp only [DEFAULT_SECTOR_SIZE] at hr ⊢
    omega
  constructor
  · intro hop
    simp [td_metrics_vdi_update_completed, completeStep, hop, updateAt, hdiv]
  · intro hop
    have hpw : ¬ IO_CMD_PWRITE = IO_CMD_PREAD := by decide
    simp [td_metrics_vdi_update_completed, completeStep, hop, hpw, updateAt,
      hdiv]

/-- Witness for C5: a read of 1636 = 3 * 512 + 100 bytes on device 0
adds exactly 3 to `read_sectors`. -/
theorem c5_sector_accounting_witness :
    ((⟨0, IO_CMD_PREAD, 1636, ⟨0, 0⟩⟩ : Op).aio_lio_opcode = IO_CMD_PREAD →
      (td_metrics_vdi_update_completed ⟨0, 0⟩
          [⟨0, IO_CMD_PREAD, 1636, ⟨0, 0⟩⟩] freshMap
          (⟨0, IO_CMD_PREAD, 1636, ⟨0, 0⟩⟩ : Op).dev).read_sectors
        = (freshMap (⟨0, IO_CMD_PREAD, 1636, ⟨0, 0⟩⟩ : Op).dev).read_sectors
            + 3) ∧
    ((⟨0, IO_CMD_PREAD, 1636, ⟨0, 0⟩⟩ : Op).aio_lio_opcode = IO_CMD_PWRITE →
      (td_metrics_vdi_update_completed ⟨0, 0⟩
          [⟨0, IO_CMD_PREAD, 1636, ⟨0, 0⟩⟩] freshMap
          (⟨0, IO_CMD_PREAD, 1636, ⟨0, 0⟩⟩ : Op).dev).write_sectors
        = (freshMap (⟨0, IO_CMD_PREAD, 1636, ⟨0, 0⟩⟩ : Op).dev).write_sectors
            + 3) :=
  c5_sector_accounting ⟨0, 0⟩ freshMap ⟨0, IO_CMD_PREAD, 1636, ⟨0, 0⟩⟩ 3 100
    (by decide) (by decide)

/-- C6: a completion event whose opcode is neither read nor write falls
through both branches of `on_complete`: every counter of every device is
left untouched and no error is signalled (the hook returns nothing). -/
theorem c6_unknown_opcode_noop (endTv : Timeval) (st : StatsMap) (iocb : Op)
    (h1 : ¬ iocb.aio_lio_opcode = IO_CMD_PREAD)
    (h2 : ¬ iocb.aio_lio_opcode = IO_CMD_PWRITE) :
    td_metrics_vdi_update_completed endTv [iocb] st = st := by
  simp [td_metrics_vdi_update_completed, completeStep, h1, h2]

/-- Witness for C6: opcode 2 (for example `IO_CMD_FSYNC`) leaves the
fresh stats map untouched. -/
theorem c6_unknown_opcode_noop_witness :
    td_metrics_vdi_update_completed ⟨0, 0⟩ [⟨0, 2, 512, ⟨0, 0⟩⟩] freshMap
      = freshMap :=
  c6_unknown_opcode_noop ⟨0, 0⟩ freshMap ⟨0, 2, 512, ⟨0, 0⟩⟩
    (by decide) (by decide)

/-- C7: the elapsed time of `on_complete` is the difference of only the
microsecond fields of the completion and submission timestamps — the
second fields play no part — and for two well-formed timestamps that
straddle a second boundary (submission strictly earlier in real time)
the interval is negative, so adding it shrinks a tick accumulator. -/
theorem c7_interval_subsecond_only :
    (∀ (sub comp : Timeval) (s1 s2 : Nat),
        interval comp sub = interval ⟨s2, comp.tv_usec⟩ ⟨s1, sub.tv_usec⟩) ∧
    (∃ sub comp : Timeval,
        sub.tv_usec < 1000000 ∧ comp.tv_usec < 1000000 ∧
        sub.tv_sec * 1000000 + sub.tv_usec <
          comp.tv_sec * 1000000 + comp.tv_usec ∧
        interval comp sub < 0 ∧
        addTicks 800000 (interval comp sub) < 800000) := by
  constructor
  · intro sub comp s1 s2
    rfl
  · exact ⟨⟨10, 900000⟩, ⟨11, 100000⟩, by decide, by decide, by decide,
      by decide, by decide⟩

/-- C8: `on_submit` stamps every operation of the batch with the single
clock sample taken before the loop (all share one timestamp), and bumps
the owning device's submitted counter for each operation: the read
counter for read opcodes, the write counter for all others. -/
theorem c8_submit_stamps_and_counts (start : Timeval) (batch : List Op)
    (st : StatsMap) :
    (td_metrics_vdi_update_submit start batch st).1
        = batch.map (fun i => { i with ts := start }) ∧
    ∀ d,
      ((td_metrics_vdi_update_submit start batch st).2 d).read_reqs_submitted
          = (st d).read_reqs_submitted +
              (batch.filter (isReadFor d)).length ∧
      ((td_metrics_vdi_update_submit start batch st).2 d).write_reqs_submitted
          = (st d).write_reqs_submitted +
              (batch.filter (isNonReadFor d)).length := by
  constructor
  · induction batch generalizing st with
    | nil => rfl
    | cons i rest ih =>
        simp [td_metrics_vdi_update_submit, submitStep, ih]
  · intro d
    rw [submit_stats_at]
    exact ⟨rfl, rfl⟩

/-- C10: submit and merge classify any opcode other than read as a
write: the write counter is bumped and the read counter untouched, while
`on_complete` ignores such opcodes entirely. -/
theorem c10_nonread_is_write_for_submit_merge (start endTv : Timeval)
    (st : StatsMap) (iocb : Op)
    (h1 : ¬ iocb.aio_lio_opcode = IO_CMD_PREAD)
    (h2 : ¬ iocb.aio_lio_opcode = IO_CMD_PWRITE) :
    (td_metrics_vdi_update_merged iocb st iocb.dev).write_reqs_merged
        = (st iocb.dev).write_reqs_merged + 1 ∧
    (td_metrics_vdi_update_merged iocb st iocb.dev).read_reqs_merged
        = (st iocb.dev).read_reqs_merged ∧
    ((td_metrics_vdi_update_submit start [iocb] st).2
        iocb.dev).write_reqs_submitted
        = (st iocb.dev).write_reqs_submitted + 1 ∧
    ((td_metrics_vdi_update_submit start [iocb] st).2
        iocb.dev).read_reqs_submitted
        = (st iocb.dev).read_reqs_submitted ∧
    td_metrics_vdi_update_completed endTv [iocb] st = st := by
  refine ⟨?_, ?_, ?_, ?_, ?_⟩ <;>
    simp [td_metrics_vdi_update_merged, td_metrics_vdi_update_submit,
      submitStep, td_metrics_vdi_update_completed, completeStep, updateAt,
      h1, h2]

/-- Witness for C10: one opcode-2 operation on device 0 over the fresh
stats map. -/
theorem c10_nonread_is_write_witness :
    (td_metrics_vdi_update_merged ⟨0, 2, 512, ⟨0, 0⟩⟩ freshMap
        (⟨0, 2, 512, ⟨0, 0⟩⟩ : Op).dev).write_reqs_merged
        = (freshMap (⟨0, 2, 512, ⟨0, 0⟩⟩ : Op).dev).write_reqs_merged + 1 ∧
    (td_metrics_vdi_update_merged ⟨0, 2, 512, ⟨0, 0⟩⟩ freshMap
        (⟨0, 2, 512, ⟨0, 0⟩⟩ : Op).dev).read_reqs_merged
        = (freshMap (⟨0, 2, 512, ⟨0, 0⟩⟩ : Op).dev).read_reqs_merged ∧
    ((td_metrics_vdi_update_submit ⟨0, 0⟩ [⟨0, 2, 512, ⟨0, 0⟩⟩] freshMap).2
        (⟨0, 2, 512, ⟨0, 0⟩⟩ : Op).dev).write_reqs_submitted
        = (freshMap (⟨0, 2, 512, ⟨0, 0⟩⟩ : Op).dev).write_reqs_submitted
            + 1 ∧
    ((td_metrics_vdi_update_submit ⟨0, 0⟩ [⟨0, 2, 512, ⟨0, 0⟩⟩] freshMap).2
        (⟨0, 2, 512, ⟨0, 0⟩⟩ : Op).dev).read_reqs_submitted
        = (freshMap (⟨0, 2, 512, ⟨0, 0⟩⟩ : Op).dev).read_reqs_submitted ∧
    td_metrics_vdi_update_completed ⟨0, 1⟩ [⟨0, 2, 512, ⟨0, 0⟩⟩] freshMap
        = freshMap :=
  c10_nonread_is_write_for_submit_merge ⟨0, 0⟩ ⟨0, 1⟩ freshMap
    ⟨0, 2, 512, ⟨0, 0⟩⟩ (by decide) (by decide)

/-! ## Directory manager -/

theorem purge_of_removable :
    ∀ es : List (String × FsEntry),
      removableList es = true → (purgeList es).1 = []
  | [] => fun _ => by simp [purgeList]
  | (name, FsEntry.file p) :: rest => fun h => by
      simp only [removableList, Bool.and_eq_true, Bool.not_eq_eq_eq_not,
        Bool.not_true] at h
      have ih := purge_of_removable rest h.2
      simp [purgeList, h.1, ih]
  | (name, FsEntry.dir p es) :: rest => fun h => by
      simp only [removableList, Bool.and_eq_true, Bool.not_eq_eq_eq_not,
        Bool.not_true] at h
      have ih1 := purge_of_removable es h.1.2
      have ih2 := purge_of_removable rest h.2
      simp [purgeList, h.1.1, ih1, ih2]

theorem purge_idem :
    ∀ es : List (String × FsEntry),
      (purgeList (purgeList es).1).1 = (purgeList es).1
  | [] => by simp [purgeList]
  | (name, FsEntry.file p) :: rest => by
      by_cases hp : p
      · simp [purgeList, hp, purge_idem rest]
      · simp [purgeList, hp, purge_idem rest]
  | (name, FsEntry.dir p es) :: rest => by
      by_cases hc : (!p && (purgeList es).1.isEmpty) = true
      · simp [purgeList, hc, purge_idem rest]
      · simp [purgeList, hc, purge_idem es, purge_idem rest]

/-- C3: starting the directory manager while a directory (with cleanly
removable contents) already sits at the computed root path succeeds with
return value 0, recursively empties that directory, and keeps using it:
the recorded path is the computed one and the root is now empty. -/
theorem c3_start_reuses_stale_dir (pid : Nat) (s : MetricsFs) (p : Bool)
    (es : List (String × FsEntry))
    (hroot : s.root = some (FsEntry.dir p es))
    (hrem : removableList es = true) :
    (td_metrics_start pid s).2 = 0 ∧
    (td_metrics_start pid s).1.root = some (FsEntry.dir p []) ∧
    (td_metrics_start pid s).1.path = some (TAPDISK_METRICS_PATHF pid) := by
  simp [td_metrics_start, hroot, empty_folder, purge_of_removable es hrem]

/-- Witness for C3: a stale root with a file and a nested subdirectory
is emptied by start, which returns 0. -/
theorem c3_start_reuses_stale_dir_witness :
    (td_metrics_start 42
      ⟨none, some (FsEntry.dir false
        [("f", FsEntry.file false),
         ("d", FsEntry.dir false [("g", FsEntry.file false)])])⟩).2 = 0 ∧
    (td_metrics_start 42
      ⟨none, some (FsEntry.dir false
        [("f", FsEntry.file false),
         ("d", FsEntry.dir false [("g", FsEntry.file false)])])⟩).1.root
      = some (FsEntry.dir false []) ∧
    (td_metrics_start 42
      ⟨none, some (FsEntry.dir false
        [("f", FsEntry.file false),
         ("d", FsEntry.dir false [("g", FsEntry.file false)])])⟩).1.path
      = some (TAPDISK_METRICS_PATHF 42) :=
  c3_start_reuses_stale_dir 42
    ⟨none, some (FsEntry.dir false
      [("f", FsEntry.file false),
       ("d", FsEntry.dir false [("g", FsEntry.file false)])])⟩
    false
    [("f", FsEntry.file false),
     ("d", FsEntry.dir false [("g", FsEntry.file false)])]
    rfl (by simp [removableList])

/-- C4: the directory manager's stop is idempotent — running it twice
from any state reaches the same state as running it once — and it is a
no-op whenever no root path was ever recorded (start never called, or
start failed before recording a path).  In the embedding the function is
total, so neither call can crash. -/
theorem c4_stop_idempotent (s : MetricsFs) (r : Option FsEntry) :
    td_metrics_stop (td_metrics_stop s) = td_metrics_stop s ∧
    td_metrics_stop ⟨none, r⟩ = ⟨none, r⟩ := by
  constructor
  · cases s with
    | mk path root =>
        cases path with
        | none => rfl
        | some p =>
            by_cases h : rmdirOk (empty_folder root).1 = true
            · have h1 : td_metrics_stop ⟨some p, root⟩ = ⟨none, none⟩ := by
                simp [td_metrics_stop, h]
              rw [h1]
              rfl
            · have h1 : td_metrics_stop ⟨some p, root⟩ =
                  ⟨some p, (empty_folder root).1⟩ := by
                simp [td_metrics_stop, h]
              rw [h1]
              cases root with
              | none => simp [td_metrics_stop, empty_folder, rmdirOk]
              | some fe =>
                  cases fe with
                  | file fp => simp [td_metrics_stop, empty_folder, rmdirOk]
                  | dir dp des =>
                      have hpi := purge_idem des
                      simp only [empty_folder] at h ⊢
                      simp [td_metrics_stop, empty_folder, hpi, h]
  · rfl

/-- C9 (amended): during a recursive purge, a removable regular file is
unlinked; a directory entry is purged recursively and then removed when
the recursion left it empty and removal succeeds, and is otherwise kept
with its purged contents; an entry whose removal fails is silently
skipped — no log line is emitted for it (the loop only logs allocation
failures) — and the purge of the sibling entries goes on unaffected;
when every entry is removable the directory ends up empty. -/
theorem c9_purge_semantics :
    (∀ es : List (String × FsEntry),
        removableList es = true → (purgeList es).1 = []) ∧
    (∀ (name : String) (rest : List (String × FsEntry)),
        (purgeList ((name, FsEntry.file false) :: rest)).1
          = (purgeList rest).1) ∧
    (∀ (name : String) (rest : List (String × FsEntry)),
        (purgeList ((name, FsEntry.file true) :: rest)).1
            = (name, FsEntry.file true) :: (purgeList rest).1 ∧
        (purgeList ((name, FsEntry.file true) :: rest)).2
            = (purgeList rest).2) ∧
    (∀ (name : String) (p : Bool) (es rest : List (String × FsEntry)),
        (purgeList ((name, FsEntry.dir p es) :: rest)).1
          = (if !p && (purgeList es).1.isEmpty then (purgeList rest).1
             else (name, FsEntry.dir p (purgeList es).1)
                    :: (purgeList rest).1)) := by
  refine ⟨purge_of_removable, ?_, ?_, ?_⟩
  · intro name rest
    simp [purgeList]
  · intro name rest
    constructor
    · simp [purgeList]
    · simp [purgeList]
  · intro name p es rest
    by_cases hc : (!p && (purgeList es).1.isEmpty) = true
    · simp [purgeList, hc]
    · simp [purgeList, hc]

/-- Witness for the amended C9 on concrete trees: a removable tree is
fully purged; an unremovable file is kept with no log while its sibling
is unlinked; a subdirectory emptied by the recursion is removed. -/
theorem c9_purge_semantics_witness :
    (purgeList [("f", FsEntry.file false),
                ("d", FsEntry.dir false [("g", FsEntry.file false)])]).1
        = [] ∧
    (purgeList [("b", FsEntry.file false)]).1 = (purgeList []).1 ∧
    ((purgeList [("a", FsEntry.file true), ("b", FsEntry.file false)]).1
          = ("a", FsEntry.file true)
              :: (purgeList [("b", FsEntry.file false)]).1 ∧
      (purgeList [("a", FsEntry.file true), ("b", FsEntry.file false)]).2
          = (purgeList [("b", FsEntry.file false)]).2) ∧
    (purgeList [("d", FsEntry.dir false [("g", FsEntry.file false)])]).1
        = (if !false && (purgeList [("g", FsEntry.file false)]).1.isEmpty
           then (purgeList ([] : List (String × FsEntry))).1
           else ("d", FsEntry.dir false
                  (purgeList [("g", FsEntry.file false)]).1)
                  :: (purgeList ([] : List (String × FsEntry))).1) :=
  ⟨c9_purge_semantics.1
      [("f", FsEntry.file false),
       ("d", FsEntry.dir false [("g", FsEntry.file false)])]
      (by simp [removableList]),
   c9_purge_semantics.2.1 "b" [],
   c9_purge_semantics.2.2.1 "a" [("b", FsEntry.file false)],
   c9_purge_semantics.2.2.2 "d" false [("g", FsEntry.file false)] []⟩

/-- C9 counterexample: in a directory holding the unremovable file `a`
and the regular file `b`, the purge fails to remove `a` (it is still
there afterwards) and removes its sibling `b`, yet the emitted log is
empty — the removal failure is not logged, contradicting the claim that
such failures are logged.  (The loop's only `EPRINTF` guards `asprintf`
failure; `stat`, `unlink` and `rmdir` returns are never checked.) -/
theorem c9_failure_not_logged_counterexample :
    (purgeList [("a", FsEntry.file true), ("b", FsEntry.file false)]).1
        = [("a", FsEntry.file true)] ∧
    (purgeList [("a", FsEntry.file true), ("b", FsEntry.file false)]).2
        = [] := by
  constructor
  · simp [purgeList]
  · simp [purgeList]

end Tapdisk
